import Mathlib

/-!
Shallow embedding of the bulk-dispatch relay in src/server.js: the form
encoder (toFormBody), the retry controller (postWithRetry), the auth
resolution, the is_web normalization and the recipient loop of the
POST /send-bulk handler, together with theorems settling the frozen
claims about them.

The downstream HTTP endpoint (postOnce at the network level) is modelled
as an oracle: a function from the attempt number to the outcome of that
call, either a resolved response with a status and a parsed body, or a
thrown transport error. JavaScript values that can appear in the request
are modelled by the inductive JVal; objects are association lists.
-/

namespace BulkRelay

/-- A scalar JavaScript value as it appears in the request body or in the
base field mapping. `undef` models the JavaScript value undefined. -/
inductive JVal : Type
  | undef : JVal
  | null : JVal
  | str : String → JVal
  | num : Int → JVal
  | bool : Bool → JVal
deriving DecidableEq, Repr

/-- JavaScript String(v) conversion for the scalar values of JVal. -/
def jsToString : JVal → String
  | .undef => "undefined"
  | .null => "null"
  | .str s => s
  | .num n => toString n
  | .bool b => if b then "true" else "false"

/-- src/server.js lines 16-23, toFormBody: iterate the entries of the
object, skip a value that is undefined or null, append String(v) for the
rest. The URLSearchParams accumulator is modelled as the ordered list of
appended (key, value) pairs. -/
def toFormBody : List (String × JVal) → List (String × String)
  | [] => []
  | (k, v) :: rest =>
    if v = JVal.undef ∨ v = JVal.null then toFormBody rest
    else (k, jsToString v) :: toFormBody rest

/-- Bytes kept verbatim by the application/x-www-form-urlencoded
serializer of URLSearchParams: ASCII alphanumerics and * - . _ -/
def isFormSafeByte (b : UInt8) : Bool :=
  (48 ≤ b && b ≤ 57) || (65 ≤ b && b ≤ 90) || (97 ≤ b && b ≤ 122) ||
  b = 42 || b = 45 || b = 46 || b = 95

/-- Upper-case hexadecimal digit of a value below 16. -/
def hexDigit (n : Nat) : Char :=
  if n < 10 then Char.ofNat (48 + n) else Char.ofNat (55 + n)

/-- Percent-encode one byte as %XX. -/
def percentByte (b : UInt8) : String :=
  String.mk [Char.ofNat 37, hexDigit (b.toNat / 16), hexDigit (b.toNat % 16)]

/-- Serialize one byte per the form-urlencoded rules: space becomes +,
safe bytes stay, the rest are percent-encoded. -/
def encodeFormByte (b : UInt8) : String :=
  if b = 32 then "+"
  else if isFormSafeByte b then String.mk [Char.ofNat b.toNat]
  else percentByte b

/-- Percent-encode a string per the form-urlencoded rules over its UTF-8
bytes. -/
def encodeFormComponent (s : String) : String :=
  String.join (s.toUTF8.toList.map encodeFormByte)

/-- The standard serialization of an ordered list of form entries:
encoded key = encoded value pairs joined by ampersands, in order. -/
def serializeForm (pairs : List (String × String)) : String :=
  String.intercalate "&" (pairs.map fun kv =>
    encodeFormComponent kv.1 ++ "=" ++ encodeFormComponent kv.2)

/-- A parsed downstream response body: JSON.parse succeeded (json),
fell back to the raw text wrapper (raw), or an object of the shape
with a single error field (errObj), as built by the catch branch and
by the missing-phone branch. -/
inductive RespBody : Type
  | json : String → RespBody
  | raw : String → RespBody
  | errObj : String → RespBody
deriving DecidableEq, Repr

/-- Outcome of one call to postOnce, as seen by postWithRetry: the
promise resolved with a status and parsed body, or it rejected with a
transport error whose String(e) rendering is carried. -/
inductive SendResult : Type
  | resp : Nat → RespBody → SendResult
  | exn : String → SendResult
deriving DecidableEq, Repr

/-- The value returned by postWithRetry. On success the object is
made of ok, attempt, status, body; on failure it is made of ok spread
with the last recorded outcome, so attempt is absent, and when no
attempt ran at all (last is still null) status and body are absent
too. Absent fields are modelled by none. -/
structure RetryResult : Type where
  ok : Bool
  attempt : Option Nat
  status : Option Nat
  body : Option RespBody
deriving DecidableEq, Repr

/-- src/server.js lines 47-62, the body of the for loop of postWithRetry,
by recursion on the number of loop iterations still allowed (the fuel,
max 0 (retries + 1 - attempt) at entry). The second component counts the
calls to postOnce that were made. The pacing sleep between attempts has
no observable effect on the returned value and is not recorded here. -/
def retryLoopFuel (oracle : Nat → SendResult) (attempt : Nat) (fuel : Nat)
    (last : Option (Nat × RespBody)) : RetryResult × Nat :=
  match fuel with
  | 0 => (⟨false, none, last.map Prod.fst, last.map Prod.snd⟩, 0)
  | Nat.succ f =>
    match oracle attempt with
    | .resp s b =>
      if 200 ≤ s ∧ s < 300 then (⟨true, some attempt, some s, some b⟩, 1)
      else
        let r := retryLoopFuel oracle (attempt + 1) f (some (s, b))
        (r.1, r.2 + 1)
    | .exn e =>
      let r := retryLoopFuel oracle (attempt + 1) f (some (0, RespBody.errObj e))
      (r.1, r.2 + 1)

/-- src/server.js lines 47-62, postWithRetry: run the loop from attempt 0
with last = null. retries is an Int because the code never checks its
sign: the loop condition attempt <= retries admits a negative value, in
which case the body runs zero times. -/
def postWithRetry (oracle : Nat → SendResult) (retries : Int) : RetryResult × Nat :=
  retryLoopFuel oracle 0 (retries + 1).toNat none

/-- One entry of the recipients array, after JSON parsing: name and phone
may each be absent. A name or phone that is present but an empty string
is falsy in the source, like an absent one. -/
structure Recipient : Type where
  name : Option String
  phone : Option String
deriving DecidableEq, Repr

/-- One element of the results array pushed by the recipient loop,
src/server.js lines 121 and 130. status and body are Options because
they are copied from the retry result, where they can be absent. -/
structure RecipientResult : Type where
  index : Nat
  name : String
  phone : Option String
  ok : Bool
  status : Option Nat
  body : Option RespBody
deriving DecidableEq, Repr

/-- Observable actions of the recipient loop, in order: a postOnce call
made on behalf of a recipient (with the form payload and the resolved
Authorization value it carries), the push of a RecipientResult onto the
results array, and the pacing sleep of line 133 between recipients. -/
inductive Event : Type
  | call : Nat → Nat → String → List (String × JVal) → String → Event
  | record : RecipientResult → Event
  | sleepBetween : Int → Event
deriving DecidableEq, Repr

/-- Whether an event is a downstream postOnce call. -/
def isCallEv : Event → Bool
  | .call _ _ _ _ _ => true
  | _ => false

/-- Whether an event is the between-recipients pacing sleep. -/
def isSleepEv : Event → Bool
  | .sleepBetween _ => true
  | _ => false

/-- Property read v = obj.k on a JavaScript object modelled as an
association list: the value of the first entry with that key, or
undefined when there is none. -/
def objGet (obj : List (String × JVal)) (k : String) : JVal :=
  match obj.find? (fun kv => kv.1 = k) with
  | none => .undef
  | some kv => kv.2

/-- Property write obj.k = v on a JavaScript object: every entry with
that key takes the new value in place (object keys are unique in
objects coming from JSON, so at most one is hit), and a missing key is
appended at the end, matching insertion-order semantics. -/
def objSet (obj : List (String × JVal)) (k : String) (v : JVal) : List (String × JVal) :=
  if k ∈ obj.map Prod.fst then
    obj.map (fun kv => if kv.1 = k then (k, v) else kv)
  else obj ++ [(k, v)]

/-- The truthy set of the is_web normalization, src/server.js line 109. -/
def isWebTruthySet : List JVal :=
  [.str "1", .str "true", .str "True", .num 1, .bool true]

/-- src/server.js lines 108-110: when base.is_web is not undefined,
overwrite it with the string 1 when its value is in the truthy set and
with the string 0 otherwise; leave the object untouched when it is
absent. -/
def normalizeIsWeb (base : List (String × JVal)) : List (String × JVal) :=
  if objGet base "is_web" = JVal.undef then base
  else objSet base "is_web"
    (if objGet base "is_web" ∈ isWebTruthySet then .str "1" else .str "0")

/-- Whether the coerced recipient record has a falsy phone, the test of
src/server.js line 120: phone absent or the empty string. -/
def entryPhoneFalsy (entry : Option Recipient) : Bool :=
  let r := entry.getD ⟨none, none⟩
  r.phone = none || r.phone = some ""

/-- src/server.js lines 126-127: the per-recipient form payload, the
base fields with receipt_phone set to the phone and, when the name is
non-empty, receipt_name set to the name. -/
def recipientPayload (base : List (String × JVal)) (entry : Option Recipient) :
    List (String × JVal) :=
  let r := entry.getD ⟨none, none⟩
  let name := r.name.getD ""
  let payload0 := objSet base "receipt_phone" (.str (r.phone.getD ""))
  if name ≠ "" then objSet payload0 "receipt_name" (.str name) else payload0

/-- src/server.js lines 115-133, the body of the recipient loop for one
recipient at 0-based position idx. Returns the pushed RecipientResult,
the out.ok flag driving the success and failed counters (false on the
missing-phone branch, whose continue skips both the downstream call and
the pacing sleep), and the ordered events of this iteration. The
downstream oracle for this recipient maps the attempt number to the
postOnce outcome. -/
def processOne (oracle : Nat → Nat → SendResult) (apiUrl authHeader : String)
    (base : List (String × JVal)) (maxRetries pauseMs : Int)
    (idx : Nat) (entry : Option Recipient) : RecipientResult × Bool × List Event :=
  let r := entry.getD ⟨none, none⟩
  let name := r.name.getD ""
  let phone := r.phone
  if phone = none ∨ phone = some "" then
    let res : RecipientResult :=
      ⟨idx + 1, name, phone, false, some 400, some (.errObj "Missing phone")⟩
    (res, false, [.record res])
  else
    let payload := recipientPayload base entry
    let out := postWithRetry (oracle idx) maxRetries
    let res : RecipientResult := ⟨idx + 1, name, phone, out.1.ok, out.1.status, out.1.body⟩
    (res, out.1.ok,
      (List.range out.2).map (fun a => .call idx a apiUrl payload authHeader) ++
        [.record res, .sleepBetween pauseMs])

/-- The recipient loop from position idx on: per-recipient results in
order, the success count, the failed count, and the concatenated event
trace. -/
def dispatchLoop (oracle : Nat → Nat → SendResult) (apiUrl authHeader : String)
    (base : List (String × JVal)) (maxRetries pauseMs : Int) :
    List (Option Recipient) → Nat → List RecipientResult × Nat × Nat × List Event
  | [], _ => ([], 0, 0, [])
  | e :: rest, idx =>
    let step := processOne oracle apiUrl authHeader base maxRetries pauseMs idx e
    let tail := dispatchLoop oracle apiUrl authHeader base maxRetries pauseMs rest (idx + 1)
    (step.1 :: tail.1,
     (if step.2.1 then 1 else 0) + tail.2.1,
     (if step.2.1 then 0 else 1) + tail.2.2.1,
     step.2.2 ++ tail.2.2.2)

/-- The trim() method of JavaScript strings: drop leading and trailing
whitespace. Written by structural recursion over the character list so
that it evaluates inside the kernel. -/
def jsTrim (s : String) : String :=
  String.mk (((s.data.dropWhile Char.isWhitespace).reverse.dropWhile
    Char.isWhitespace).reverse)

/-- Trim of an optional string, with absent treated as empty: the truthy
test h && h.trim() of src/server.js lines 90-91 keeps exactly the
values whose trim is a non-empty string. -/
def trimOrEmpty : Option String → String
  | none => ""
  | some s => jsTrim s

/-- src/server.js lines 89-92: the Authorization header of the transport
request when present and non-blank after trimming, else the request
body authHeader when present and non-blank after trimming, else the
process default. -/
def resolveAuth (headerAuth bodyAuth : Option String) (dflt : String) : String :=
  if trimOrEmpty headerAuth ≠ "" then trimOrEmpty headerAuth
  else if trimOrEmpty bodyAuth ≠ "" then trimOrEmpty bodyAuth
  else dflt

/-- Process-wide defaults fixed at startup from the environment. -/
structure Defaults : Type where
  apiUrl : String
  authHeader : String
  maxRetries : Int
  pauseMs : Int
deriving DecidableEq, Repr

/-- The parsed JSON body of POST /send-bulk. pauseMs and maxRetries are
some n exactly when the body carries a finite number there, matching
the Number.isFinite guard of lines 100-101; recipients is some l
exactly when the body carries an array (a non-array value fails the
Array.isArray check exactly as an absent one does, since the || []
default is itself an array of length 0). -/
structure BulkRequest : Type where
  apiUrl : Option String
  authHeader : Option String
  base : Option (List (String × JVal))
  recipients : Option (List (Option Recipient))
  pauseMs : Option Int
  maxRetries : Option Int
deriving Repr

/-- The summary object of the 200 response. -/
structure Summary : Type where
  total : Nat
  success : Nat
  failed : Nat
deriving DecidableEq, Repr

/-- The response sent by the handler: a client-error JSON with a status
code and error string, or the 200 summary-and-results JSON. -/
inductive Response : Type
  | clientError : Nat → String → Response
  | okResp : Summary → List RecipientResult → Response
deriving DecidableEq, Repr

/-- src/server.js lines 82-136, the POST /send-bulk handler on a request
that parsed as JSON: resolve apiUrl and auth, reject with 400 when no
auth is resolvable, default base and recipients, resolve pacing and
retry numbers, reject with 400 when recipients is empty or not an
array, normalize is_web, run the recipient loop and return the summary
with the results; paired with the event trace of the downstream calls,
result pushes and pacing sleeps performed. -/
def handleSendBulk (oracle : Nat → Nat → SendResult) (d : Defaults)
    (headerAuth : Option String) (req : BulkRequest) : Response × List Event :=
  let apiUrl := jsTrim (match req.apiUrl with
    | some s => if s = "" then d.apiUrl else s
    | none => d.apiUrl)
  let auth := resolveAuth headerAuth req.authHeader d.authHeader
  if auth = "" then
    (.clientError 400 "Missing auth (send Authorization header or authHeader in body)", [])
  else
    let base := req.base.getD []
    let recipients := req.recipients.getD []
    let pauseMs := req.pauseMs.getD d.pauseMs
    let maxRetries := req.maxRetries.getD d.maxRetries
    if recipients.length = 0 then
      (.clientError 400 "recipients must be a non-empty array", [])
    else
      let nbase := normalizeIsWeb base
      let run := dispatchLoop oracle apiUrl auth nbase maxRetries pauseMs recipients 0
      (.okResp ⟨recipients.length, run.2.1, run.2.2.1⟩ run.1, run.2.2.2)

/-! Concrete fixtures used to instantiate the theorems: a downstream
that always answers 200, small defaults, and small requests. -/

/-- A downstream that resolves every call of every recipient with
status 200 and the parsed JSON body done. -/
def oracleAlways200 : Nat → Nat → SendResult := fun _ _ => .resp 200 (.json "done")

/-- Small process defaults with an empty default auth header. -/
def defaultsFix : Defaults := ⟨"u", "", 2, 500⟩

/-- A request with one phoned recipient followed by one falsy entry,
explicit pauseMs 5 and maxRetries 0. -/
def reqTwoRecipients : BulkRequest :=
  ⟨none, none, none, some [some ⟨none, some "111"⟩, none], some 5, some 0⟩

/-- A request whose recipients array holds a single falsy entry. -/
def reqOneMissing : BulkRequest := ⟨none, none, none, some [none], none, none⟩

/-- Expected result for the phoned recipient of reqTwoRecipients. -/
def resultPhone111 : RecipientResult :=
  ⟨1, "", some "111", true, some 200, some (RespBody.json "done")⟩

/-- Expected result for the falsy second entry of reqTwoRecipients. -/
def resultMissing2 : RecipientResult :=
  ⟨2, "", none, false, some 400, some (RespBody.errObj "Missing phone")⟩

/-- Expected summary for reqTwoRecipients. -/
def summaryFix : Summary := ⟨2, 1, 1⟩

/-- Expected event trace for reqTwoRecipients: one downstream call, the
first record, the pacing sleep, the second record and no further sleep
because the missing-phone branch continues past it. -/
def traceTwoRecipients : List Event :=
  [.call 0 0 "u" [("receipt_phone", .str "111")] "Token h",
   .record resultPhone111, .sleepBetween 5, .record resultMissing2]

/-- A recipient present in the array but with an empty phone string. -/
def entryEmptyPhone : Option Recipient := some ⟨some "Bob", some ""⟩

end BulkRelay

namespace BulkRelay

/-! Theorems. -/

lemma retryLoopFuel_step_fail (oracle : Nat → SendResult) (a f : Nat)
    (last : Option (Nat × RespBody)) (s0 : Nat) (b0 : RespBody)
    (ho : oracle a = SendResult.resp s0 b0) (hno : ¬(200 ≤ s0 ∧ s0 < 300)) :
    retryLoopFuel oracle a (f + 1) last =
      ((retryLoopFuel oracle (a + 1) f (some (s0, b0))).1,
       (retryLoopFuel oracle (a + 1) f (some (s0, b0))).2 + 1) := by
  simp only [retryLoopFuel, ho, if_neg hno]

lemma retryLoopFuel_step_exn (oracle : Nat → SendResult) (a f : Nat)
    (last : Option (Nat × RespBody)) (e : String)
    (ho : oracle a = SendResult.exn e) :
    retryLoopFuel oracle a (f + 1) last =
      ((retryLoopFuel oracle (a + 1) f (some (0, RespBody.errObj e))).1,
       (retryLoopFuel oracle (a + 1) f (some (0, RespBody.errObj e))).2 + 1) := by
  simp only [retryLoopFuel, ho]

lemma retryLoopFuel_step_ok (oracle : Nat → SendResult) (a f : Nat)
    (last : Option (Nat × RespBody)) (s : Nat) (b : RespBody)
    (ho : oracle a = SendResult.resp s b) (h2xx : 200 ≤ s ∧ s < 300) :
    retryLoopFuel oracle a (f + 1) last =
      ({ ok := true, attempt := some a, status := some s, body := some b }, 1) := by
  simp only [retryLoopFuel, ho, if_pos h2xx]

lemma retryLoopFuel_allFail (oracle : Nat → SendResult)
    (hall : ∀ k, ∃ s b, oracle k = SendResult.resp s b ∧ ¬(200 ≤ s ∧ s < 300)) :
    ∀ (n a : Nat) (last : Option (Nat × RespBody)) (s : Nat) (b : RespBody),
      oracle (a + n) = SendResult.resp s b →
      retryLoopFuel oracle a (n + 1) last =
        ({ ok := false, attempt := none, status := some s, body := some b }, n + 1) := by
  intro n
  induction n with
  | zero =>
    intro a last s b h
    rw [Nat.add_zero] at h
    obtain ⟨s0, b0, ho, hno⟩ := hall a
    rw [h] at ho
    injection ho with h1 h2
    subst h1
    subst h2
    rw [retryLoopFuel_step_fail oracle a 0 last s b h hno]
    rfl
  | succ n ih =>
    intro a last s b h
    obtain ⟨s0, b0, ho, hno⟩ := hall a
    have hrec := ih (a + 1) (some (s0, b0)) s b (by rw [← h]; ring_nf)
    rw [retryLoopFuel_step_fail oracle a (n + 1) last s0 b0 ho hno, hrec]

/-- C3: for every retries value r greater or equal 0, when every
downstream attempt resolves with a non-2xx status, postWithRetry makes
exactly r + 1 calls to postOnce and returns ok false with the status
and body of the last attempt and with no attempt field. -/
theorem claim3_all_attempts_fail (oracle : Nat → SendResult) (r : Nat)
    (hall : ∀ k, ∃ s b, oracle k = SendResult.resp s b ∧ ¬(200 ≤ s ∧ s < 300))
    (s : Nat) (b : RespBody) (hlast : oracle r = SendResult.resp s b) :
    postWithRetry oracle (r : Int) =
      ({ ok := false, attempt := none, status := some s, body := some b }, r + 1) := by
  have ht : ((r : Int) + 1).toNat = r + 1 := by omega
  unfold postWithRetry
  rw [ht]
  exact retryLoopFuel_allFail oracle hall r 0 none s b (by simpa using hlast)

/-- C3 witness: a downstream that always answers 503 with maxRetries 2
gives three attempts and ok false with status 503. -/
theorem claim3_all_attempts_fail_witness :
    postWithRetry (fun _ => SendResult.resp 503 (RespBody.raw "busy")) ((2 : Nat) : Int) =
      ({ ok := false, attempt := none, status := some 503,
         body := some (RespBody.raw "busy") }, 3) :=
  claim3_all_attempts_fail _ 2
    (fun _ => ⟨503, RespBody.raw "busy", rfl, by decide⟩)
    503 (RespBody.raw "busy") rfl

lemma retryLoopFuel_firstSuccess (oracle : Nat → SendResult) :
    ∀ (m a fuel : Nat) (last : Option (Nat × RespBody)) (s : Nat) (b : RespBody),
      m < fuel →
      (∀ k, k < m → ∀ s0 b0, oracle (a + k) = SendResult.resp s0 b0 →
        ¬(200 ≤ s0 ∧ s0 < 300)) →
      oracle (a + m) = SendResult.resp s b → 200 ≤ s → s < 300 →
      retryLoopFuel oracle a fuel last =
        ({ ok := true, attempt := some (a + m), status := some s, body := some b }, m + 1) := by
  intro m
  induction m with
  | zero =>
    intro a fuel last s b hfuel _ h h2 h3
    rw [Nat.add_zero] at h
    obtain ⟨f, rfl⟩ : ∃ f, fuel = f + 1 := ⟨fuel - 1, by omega⟩
    rw [retryLoopFuel_step_ok oracle a f last s b h (And.intro h2 h3)]
    rw [Nat.add_zero]
  | succ m ih =>
    intro a fuel last s b hfuel hearlier h h2 h3
    obtain ⟨f, rfl⟩ : ∃ f, fuel = f + 1 := ⟨fuel - 1, by omega⟩
    cases ho : oracle a with
    | resp s0 b0 =>
      have hno : ¬(200 ≤ s0 ∧ s0 < 300) := hearlier 0 (Nat.succ_pos m) s0 b0 (by simpa using ho)
      have hstep := ih (a + 1) f (some (s0, b0)) s b (by omega)
        (fun k hk s1 b1 hk1 => hearlier (k + 1) (by omega) s1 b1 (by rw [← hk1]; ring_nf))
        (by rw [← h]; ring_nf) h2 h3
      have harith : a + 1 + m = a + (m + 1) := by omega
      rw [retryLoopFuel_step_fail oracle a f last s0 b0 ho hno, hstep, harith]
    | exn e =>
      have hstep := ih (a + 1) f (some (0, RespBody.errObj e)) s b (by omega)
        (fun k hk s1 b1 hk1 => hearlier (k + 1) (by omega) s1 b1 (by rw [← hk1]; ring_nf))
        (by rw [← h]; ring_nf) h2 h3
      have harith : a + 1 + m = a + (m + 1) := by omega
      rw [retryLoopFuel_step_exn oracle a f last e ho, hstep, harith]

/-- C4: when the attempt at 0-based index m, with m at most retries, is
the first to resolve with a status in the interval from 200 to 299 and
every earlier attempt either threw or resolved non-2xx, postWithRetry
returns ok true with attempt m and that status and body, after exactly
m + 1 calls, so no further attempt is made; thrown earlier attempts are
caught and do not propagate. -/
theorem claim4_first_success_returns (oracle : Nat → SendResult) (retries m : Nat)
    (hm : m ≤ retries)
    (hearlier : ∀ k, k < m → ∀ s0 b0, oracle k = SendResult.resp s0 b0 →
      ¬(200 ≤ s0 ∧ s0 < 300))
    (s : Nat) (b : RespBody) (hsucc : oracle m = SendResult.resp s b)
    (h2 : 200 ≤ s) (h3 : s < 300) :
    postWithRetry oracle (retries : Int) =
      ({ ok := true, attempt := some m, status := some s, body := some b }, m + 1) := by
  have ht : ((retries : Int) + 1).toNat = retries + 1 := by omega
  unfold postWithRetry
  rw [ht]
  have := retryLoopFuel_firstSuccess oracle m 0 (retries + 1) none s b (by omega)
    (fun k hk s0 b0 hk0 => hearlier k hk s0 b0 (by simpa using hk0))
    (by simpa using hsucc) h2 h3
  simpa using this

/-- C4 witness: a downstream that throws on the first two calls and
answers 200 on the third, with retries 2, gives ok true, attempt 2,
status 200 after exactly three calls. -/
theorem claim4_first_success_returns_witness :
    postWithRetry
      (fun k => if k < 2 then SendResult.exn "boom" else SendResult.resp 200 (RespBody.json "done"))
      ((2 : Nat) : Int) =
      ({ ok := true, attempt := some 2, status := some 200,
         body := some (RespBody.json "done") }, 3) :=
  claim4_first_success_returns _ 2 2 (le_refl 2)
    (fun k hk s0 b0 hk0 => by
      rw [if_pos hk] at hk0
      exact absurd hk0 (by intro hc; cases hc))
    200 (RespBody.json "done") rfl (by decide) (by decide)

/-- C9: a finite negative retries value, which the Number.isFinite guard
does let through from the request body, makes the loop of postWithRetry
run zero times: no downstream call happens, nothing is thrown, and the
returned object is ok false spread over a null last outcome, so it has
no attempt, no status and no body field. -/
theorem claim9_negative_retries_no_call (oracle : Nat → SendResult) (retries : Int)
    (hneg : retries < 0) :
    postWithRetry oracle retries =
      ({ ok := false, attempt := none, status := none, body := none }, 0) := by
  unfold postWithRetry
  have ht : (retries + 1).toNat = 0 := by omega
  rw [ht]
  rfl

/-- C9 witness: retries minus one makes zero calls and returns the bare
ok false object. -/
theorem claim9_negative_retries_no_call_witness :
    postWithRetry (fun _ => SendResult.resp 200 (RespBody.json "done")) (-1) =
      ({ ok := false, attempt := none, status := none, body := none }, 0) :=
  claim9_negative_retries_no_call _ (-1) (by decide)

lemma entryPhoneFalsy_iff (entry : Option Recipient) :
    entryPhoneFalsy entry = true ↔
      ((entry.getD ⟨none, none⟩).phone = none ∨
        (entry.getD ⟨none, none⟩).phone = some "") := by
  simp [entryPhoneFalsy]

lemma processOne_falsy (oracle : Nat → Nat → SendResult) (apiUrl auth : String)
    (base : List (String × JVal)) (mr pm : Int) (idx : Nat) (entry : Option Recipient)
    (hfalsy : (entry.getD ⟨none, none⟩).phone = none ∨
      (entry.getD ⟨none, none⟩).phone = some "") :
    processOne oracle apiUrl auth base mr pm idx entry =
      (⟨idx + 1, (entry.getD ⟨none, none⟩).name.getD "", (entry.getD ⟨none, none⟩).phone,
        false, some 400, some (RespBody.errObj "Missing phone")⟩, false,
       [Event.record ⟨idx + 1, (entry.getD ⟨none, none⟩).name.getD "",
         (entry.getD ⟨none, none⟩).phone, false, some 400,
         some (RespBody.errObj "Missing phone")⟩]) := by
  simp only [processOne, if_pos hfalsy]

lemma processOne_phoned (oracle : Nat → Nat → SendResult) (apiUrl auth : String)
    (base : List (String × JVal)) (mr pm : Int) (idx : Nat) (entry : Option Recipient)
    (hphone : ¬((entry.getD ⟨none, none⟩).phone = none ∨
      (entry.getD ⟨none, none⟩).phone = some "")) :
    processOne oracle apiUrl auth base mr pm idx entry =
      (⟨idx + 1, (entry.getD ⟨none, none⟩).name.getD "", (entry.getD ⟨none, none⟩).phone,
        (postWithRetry (oracle idx) mr).1.ok, (postWithRetry (oracle idx) mr).1.status,
        (postWithRetry (oracle idx) mr).1.body⟩,
       (postWithRetry (oracle idx) mr).1.ok,
       (List.range (postWithRetry (oracle idx) mr).2).map
         (fun a => Event.call idx a apiUrl (recipientPayload base entry) auth) ++
       [Event.record ⟨idx + 1, (entry.getD ⟨none, none⟩).name.getD "",
         (entry.getD ⟨none, none⟩).phone, (postWithRetry (oracle idx) mr).1.ok,
         (postWithRetry (oracle idx) mr).1.status, (postWithRetry (oracle idx) mr).1.body⟩,
        Event.sleepBetween pm]) := by
  simp only [processOne, if_neg hphone, recipientPayload]

lemma processOne_index (oracle : Nat → Nat → SendResult) (apiUrl auth : String)
    (base : List (String × JVal)) (mr pm : Int) (idx : Nat) (entry : Option Recipient) :
    (processOne oracle apiUrl auth base mr pm idx entry).1.index = idx + 1 := by
  by_cases h : (entry.getD ⟨none, none⟩).phone = none ∨
      (entry.getD ⟨none, none⟩).phone = some ""
  · rw [processOne_falsy oracle apiUrl auth base mr pm idx entry h]
  · rw [processOne_phoned oracle apiUrl auth base mr pm idx entry h]

lemma dispatchLoop_length (oracle : Nat → Nat → SendResult) (apiUrl auth : String)
    (base : List (String × JVal)) (mr pm : Int) :
    ∀ (rs : List (Option Recipient)) (idx : Nat),
      (dispatchLoop oracle apiUrl auth base mr pm rs idx).1.length = rs.length := by
  intro rs
  induction rs with
  | nil => intro idx; rfl
  | cons e rest ih => intro idx; simp [dispatchLoop, ih (idx + 1)]

lemma dispatchLoop_counts (oracle : Nat → Nat → SendResult) (apiUrl auth : String)
    (base : List (String × JVal)) (mr pm : Int) :
    ∀ (rs : List (Option Recipient)) (idx : Nat),
      (dispatchLoop oracle apiUrl auth base mr pm rs idx).2.1 +
        (dispatchLoop oracle apiUrl auth base mr pm rs idx).2.2.1 = rs.length := by
  intro rs
  induction rs with
  | nil => intro idx; rfl
  | cons e rest ih =>
    intro idx
    have h := ih (idx + 1)
    by_cases hc : (processOne oracle apiUrl auth base mr pm idx e).2.1 = true
    · simp [dispatchLoop, hc]
      omega
    · simp only [Bool.not_eq_true] at hc
      simp [dispatchLoop, hc]
      omega

lemma dispatchLoop_index (oracle : Nat → Nat → SendResult) (apiUrl auth : String)
    (base : List (String × JVal)) (mr pm : Int) :
    ∀ (rs : List (Option Recipient)) (idx j : Nat)
      (hj : j < (dispatchLoop oracle apiUrl auth base mr pm rs idx).1.length),
      ((dispatchLoop oracle apiUrl auth base mr pm rs idx).1.get ⟨j, hj⟩).index =
        idx + j + 1 := by
  intro rs
  induction rs with
  | nil =>
    intro idx j hj
    exact absurd hj (by simp [dispatchLoop])
  | cons e rest ih =>
    intro idx j hj
    cases j with
    | zero =>
      simpa [dispatchLoop] using processOne_index oracle apiUrl auth base mr pm idx e
    | succ j =>
      have hj2 : j < (dispatchLoop oracle apiUrl auth base mr pm rest (idx + 1)).1.length := by
        have hl1 := dispatchLoop_length oracle apiUrl auth base mr pm (e :: rest) idx
        have hl2 := dispatchLoop_length oracle apiUrl auth base mr pm rest (idx + 1)
        rw [List.length_cons] at hl1
        omega
      have hrec := ih (idx + 1) j hj2
      have hcons :
          ((dispatchLoop oracle apiUrl auth base mr pm (e :: rest) idx).1.get ⟨j + 1, hj⟩) =
            ((dispatchLoop oracle apiUrl auth base mr pm rest (idx + 1)).1.get ⟨j, hj2⟩) := by
        simp [dispatchLoop]
      rw [hcons, hrec]
      omega

/-- C2: every bulk request that passes the request-level validation gets
a response whose results list has one entry per recipient, whose
summary counts total exactly the recipients, whose success and failed
counts add up to the total, and whose entry at 0-based position j
carries index j + 1, so indices are the unique 1-based input positions
in input order. -/
theorem claim2_response_invariants (oracle : Nat → Nat → SendResult) (d : Defaults)
    (headerAuth : Option String) (req : BulkRequest)
    (summary : Summary) (results : List RecipientResult) (tr : List Event)
    (h : handleSendBulk oracle d headerAuth req = (Response.okResp summary results, tr)) :
    results.length = (req.recipients.getD []).length ∧
    summary.total = (req.recipients.getD []).length ∧
    summary.success + summary.failed = summary.total ∧
    ∀ (j : Nat) (hj : j < results.length), (results.get ⟨j, hj⟩).index = j + 1 := by
  simp only [handleSendBulk] at h
  by_cases hauth : resolveAuth headerAuth req.authHeader d.authHeader = ""
  · rw [if_pos hauth] at h
    exact absurd (congrArg Prod.fst h) (by simp)
  · rw [if_neg hauth] at h
    by_cases hrec : (req.recipients.getD []).length = 0
    · rw [if_pos hrec] at h
      exact absurd (congrArg Prod.fst h) (by simp)
    · rw [if_neg hrec] at h
      have h1 := congrArg Prod.fst h
      simp only [Response.okResp.injEq] at h1
      obtain ⟨hsum, hres⟩ := h1
      subst hres
      subst hsum
      refine ⟨?_, ?_, ?_, ?_⟩
      · exact dispatchLoop_length oracle _ _ _ _ _ (req.recipients.getD []) 0
      · rfl
      · exact dispatchLoop_counts oracle _ _ _ _ _ (req.recipients.getD []) 0
      · intro j hj
        have := dispatchLoop_index oracle _ _ _ _ _ (req.recipients.getD []) 0 j hj
        omega

/-- C2 witness: the two-recipient request against the always-200
downstream satisfies every invariant. -/
theorem claim2_response_invariants_witness :
    [resultPhone111, resultMissing2].length = (reqTwoRecipients.recipients.getD []).length ∧
    summaryFix.total = (reqTwoRecipients.recipients.getD []).length ∧
    summaryFix.success + summaryFix.failed = summaryFix.total ∧
    ([resultPhone111, resultMissing2].get ⟨1, by decide⟩).index = 2 := by
  have h := claim2_response_invariants oracleAlways200 defaultsFix (some "Token h")
    reqTwoRecipients summaryFix [resultPhone111, resultMissing2] traceTwoRecipients
    (by decide)
  exact ⟨h.1, h.2.1, h.2.2.1, h.2.2.2 1 (by decide)⟩

/-- C5: a recipient whose phone is missing or the empty string gets a
RecipientResult with ok false, status 400 and the Missing phone error
body, no downstream call at all is made on its behalf, and the failed
count of the loop goes up by one relative to the remaining recipients. -/
theorem claim5_missing_phone_no_call (oracle : Nat → Nat → SendResult)
    (apiUrl auth : String) (base : List (String × JVal)) (mr pm : Int)
    (idx : Nat) (entry : Option Recipient) (rest : List (Option Recipient))
    (hfalsy : entryPhoneFalsy entry = true) :
    (processOne oracle apiUrl auth base mr pm idx entry).1.ok = false ∧
    (processOne oracle apiUrl auth base mr pm idx entry).1.status = some 400 ∧
    (processOne oracle apiUrl auth base mr pm idx entry).1.body =
      some (RespBody.errObj "Missing phone") ∧
    (processOne oracle apiUrl auth base mr pm idx entry).2.2.countP isCallEv = 0 ∧
    (dispatchLoop oracle apiUrl auth base mr pm (entry :: rest) idx).2.2.1 =
      1 + (dispatchLoop oracle apiUrl auth base mr pm rest (idx + 1)).2.2.1 := by
  have hp := (entryPhoneFalsy_iff entry).mp hfalsy
  have hone := processOne_falsy oracle apiUrl auth base mr pm idx entry hp
  refine ⟨?_, ?_, ?_, ?_, ?_⟩
  · rw [hone]
  · rw [hone]
  · rw [hone]
  · rw [hone]
    simp [isCallEv]
  · simp [dispatchLoop, hone]

/-- C5 witness: the empty-phone recipient as only entry of the batch
yields the 400 result, zero downstream calls and failed count one. -/
theorem claim5_missing_phone_no_call_witness :
    (processOne oracleAlways200 "u" "T" [] 2 500 0 entryEmptyPhone).1.ok = false ∧
    (processOne oracleAlways200 "u" "T" [] 2 500 0 entryEmptyPhone).1.status = some 400 ∧
    (processOne oracleAlways200 "u" "T" [] 2 500 0 entryEmptyPhone).1.body =
      some (RespBody.errObj "Missing phone") ∧
    (processOne oracleAlways200 "u" "T" [] 2 500 0 entryEmptyPhone).2.2.countP isCallEv = 0 ∧
    (dispatchLoop oracleAlways200 "u" "T" [] 2 500 [entryEmptyPhone] 0).2.2.1 =
      1 + (dispatchLoop oracleAlways200 "u" "T" [] 2 500 [] 1).2.2.1 :=
  claim5_missing_phone_no_call oracleAlways200 "u" "T" [] 2 500 0 entryEmptyPhone []
    (by decide)

/-- C10: a falsy recipients entry is coerced to the empty record and
produces exactly the result with the 1-based index, empty name, absent
phone, ok false, status 400 and the Missing phone body; the loop keeps
going, its results continuing with those of the remaining entries, so
nothing aborts and no error escapes. -/
theorem claim10_falsy_entry_coerced (oracle : Nat → Nat → SendResult)
    (apiUrl auth : String) (base : List (String × JVal)) (mr pm : Int)
    (idx : Nat) (rest : List (Option Recipient)) :
    processOne oracle apiUrl auth base mr pm idx none =
      (⟨idx + 1, "", none, false, some 400, some (RespBody.errObj "Missing phone")⟩, false,
       [Event.record ⟨idx + 1, "", none, false, some 400,
         some (RespBody.errObj "Missing phone")⟩]) ∧
    (dispatchLoop oracle apiUrl auth base mr pm (none :: rest) idx).1 =
      ⟨idx + 1, "", none, false, some 400, some (RespBody.errObj "Missing phone")⟩ ::
        (dispatchLoop oracle apiUrl auth base mr pm rest (idx + 1)).1 := by
  have h := processOne_falsy oracle apiUrl auth base mr pm idx none (Or.inl rfl)
  exact ⟨h, by simp [dispatchLoop, h]⟩

/-- C1 counterexample: a batch whose only recipient has no phone
produces a trace containing no pacing sleep at all, although one
recipient was processed, so the dispatcher does not sleep pauseMs after
every recipient as the claim states for the validation-failure case. -/
theorem claim1_counterexample :
    (handleSendBulk oracleAlways200 defaultsFix (some "Token h") reqOneMissing).2.countP
      isSleepEv = 0 ∧
    (reqOneMissing.recipients.getD []).length = 1 := by
  decide

/-- C1 amended: the dispatcher sleeps pauseMs after recording the result
only for a recipient whose phone is present and non-empty, the sleep
coming right after the record which itself follows the downstream
calls; for a recipient whose phone is missing or empty the continue
statement skips the sleep, so that iteration emits its record and
nothing else. -/
theorem claim1_pacing_amended (oracle : Nat → Nat → SendResult)
    (apiUrl auth : String) (base : List (String × JVal)) (mr pm : Int)
    (idx : Nat) (entry : Option Recipient) :
    (entryPhoneFalsy entry = false →
      (processOne oracle apiUrl auth base mr pm idx entry).2.2 =
        (List.range (postWithRetry (oracle idx) mr).2).map
          (fun a => Event.call idx a apiUrl (recipientPayload base entry) auth) ++
        [Event.record (processOne oracle apiUrl auth base mr pm idx entry).1,
         Event.sleepBetween pm]) ∧
    (entryPhoneFalsy entry = true →
      (processOne oracle apiUrl auth base mr pm idx entry).2.2 =
        [Event.record (processOne oracle apiUrl auth base mr pm idx entry).1]) := by
  constructor
  · intro hf
    have hp : ¬((entry.getD ⟨none, none⟩).phone = none ∨
        (entry.getD ⟨none, none⟩).phone = some "") := by
      intro hc
      rw [(entryPhoneFalsy_iff entry).mpr hc] at hf
      cases hf
    rw [processOne_phoned oracle apiUrl auth base mr pm idx entry hp]
  · intro ht
    rw [processOne_falsy oracle apiUrl auth base mr pm idx entry
      ((entryPhoneFalsy_iff entry).mp ht)]

/-- C1 amended witness: for a phoned recipient against the always-200
downstream the iteration trace is the single call, then the record,
then the pacing sleep. -/
theorem claim1_pacing_amended_witness :
    (processOne oracleAlways200 "u" "T" [] 0 5 0 (some ⟨none, some "111"⟩)).2.2 =
      (List.range (postWithRetry (oracleAlways200 0) 0).2).map
        (fun a => Event.call 0 a "u" (recipientPayload [] (some ⟨none, some "111"⟩)) "T") ++
      [Event.record (processOne oracleAlways200 "u" "T" [] 0 5 0 (some ⟨none, some "111"⟩)).1,
       Event.sleepBetween 5] :=
  (claim1_pacing_amended oracleAlways200 "u" "T" [] 0 5 0 (some ⟨none, some "111"⟩)).1
    (by decide)

/-- C6: the Authorization value used by the handler is the transport
header when non-blank after trimming, else the request-body authHeader
when non-blank after trimming, else the process default; when all three
are blank or absent the handler answers 400 at once with an empty event
trace, so no downstream call is made. -/
theorem claim6_auth_precedence (oracle : Nat → Nat → SendResult) (d : Defaults)
    (headerAuth : Option String) (req : BulkRequest) :
    (trimOrEmpty headerAuth ≠ "" →
      resolveAuth headerAuth req.authHeader d.authHeader = trimOrEmpty headerAuth) ∧
    (trimOrEmpty headerAuth = "" → trimOrEmpty req.authHeader ≠ "" →
      resolveAuth headerAuth req.authHeader d.authHeader = trimOrEmpty req.authHeader) ∧
    (trimOrEmpty headerAuth = "" → trimOrEmpty req.authHeader = "" →
      resolveAuth headerAuth req.authHeader d.authHeader = d.authHeader) ∧
    (trimOrEmpty headerAuth = "" → trimOrEmpty req.authHeader = "" → d.authHeader = "" →
      handleSendBulk oracle d headerAuth req =
        (Response.clientError 400
          "Missing auth (send Authorization header or authHeader in body)", [])) := by
  refine ⟨?_, ?_, ?_, ?_⟩
  · intro h1
    simp [resolveAuth, h1]
  · intro h1 h2
    simp [resolveAuth, h1, h2]
  · intro h1 h2
    simp [resolveAuth, h1, h2]
  · intro h1 h2 h3
    have hra : resolveAuth headerAuth req.authHeader d.authHeader = "" := by
      simp [resolveAuth, h1, h2, h3]
    simp [handleSendBulk, hra]

/-- C6 witness: each precedence case at concrete values, and the 400
with empty trace when header, body field and default are all blank. -/
theorem claim6_auth_precedence_witness :
    resolveAuth (some " Token hd ") (some "Token bd") "Token df" = jsTrim " Token hd " ∧
    resolveAuth none (some "Token bd") "Token df" = jsTrim "Token bd" ∧
    resolveAuth none none "Token df" = "Token df" ∧
    handleSendBulk oracleAlways200 defaultsFix none reqOneMissing =
      (Response.clientError 400
        "Missing auth (send Authorization header or authHeader in body)", []) := by
  refine ⟨?_, ?_, ?_, ?_⟩
  · exact (claim6_auth_precedence oracleAlways200 ⟨"u", "Token df", 2, 500⟩
      (some " Token hd ") ⟨none, some "Token bd", none, none, none, none⟩).1 (by decide)
  · exact (claim6_auth_precedence oracleAlways200 ⟨"u", "Token df", 2, 500⟩
      none ⟨none, some "Token bd", none, none, none, none⟩).2.1 (by decide) (by decide)
  · exact (claim6_auth_precedence oracleAlways200 ⟨"u", "Token df", 2, 500⟩
      none ⟨none, none, none, none, none, none⟩).2.2.1 (by decide) (by decide)
  · exact (claim6_auth_precedence oracleAlways200 defaultsFix none reqOneMissing).2.2.2
      (by decide) (by decide) (by decide)

lemma objGet_objSet (obj : List (String × JVal)) (k : String) (v : JVal) :
    objGet (objSet obj k v) k = v := by
  induction obj with
  | nil => simp [objSet, objGet, List.find?]
  | cons hd tl ih =>
    obtain ⟨k0, v0⟩ := hd
    by_cases hk : k0 = k
    · subst hk
      simp [objSet, objGet, List.find?]
    · have hk2 : ¬k = k0 := fun h => hk h.symm
      by_cases hc : k ∈ tl.map Prod.fst
      · have htl : objSet tl k v = tl.map (fun kv => if kv.1 = k then (k, v) else kv) := by
          simp [objSet, hc]
        have hcons : objSet ((k0, v0) :: tl) k v =
            (k0, v0) :: tl.map (fun kv => if kv.1 = k then (k, v) else kv) := by
          simp [objSet, List.mem_cons, hc, hk, hk2]
        rw [hcons]
        have hskip : objGet ((k0, v0) ::
            tl.map (fun kv => if kv.1 = k then (k, v) else kv)) k =
            objGet (tl.map (fun kv => if kv.1 = k then (k, v) else kv)) k := by
          simp [objGet, List.find?, hk]
        rw [hskip, ← htl]
        exact ih
      · have htl : objSet tl k v = tl ++ [(k, v)] := by
          simp [objSet, hc]
        have hcons : objSet ((k0, v0) :: tl) k v = (k0, v0) :: (tl ++ [(k, v)]) := by
          simp [objSet, List.mem_cons, hc, hk, hk2]
        rw [hcons]
        have hskip : objGet ((k0, v0) :: (tl ++ [(k, v)])) k =
            objGet (tl ++ [(k, v)]) k := by
          simp [objGet, List.find?, hk]
        rw [hskip, ← htl]
        exact ih

/-- C7: when base.is_web is present it is normalized in place, becoming
the string 1 exactly when its value is the string 1, the string true,
the string True, the number 1 or the boolean true, and the string 0 for
every other present value; when is_web is absent the base object is
returned untouched, so no default appears. -/
theorem claim7_is_web_normalization (base : List (String × JVal)) :
    (objGet base "is_web" = JVal.undef → normalizeIsWeb base = base) ∧
    (objGet base "is_web" ≠ JVal.undef →
      ((objGet (normalizeIsWeb base) "is_web" = JVal.str "1") ↔
        (objGet base "is_web" = JVal.str "1" ∨ objGet base "is_web" = JVal.str "true" ∨
         objGet base "is_web" = JVal.str "True" ∨ objGet base "is_web" = JVal.num 1 ∨
         objGet base "is_web" = JVal.bool true)) ∧
      (objGet (normalizeIsWeb base) "is_web" = JVal.str "1" ∨
       objGet (normalizeIsWeb base) "is_web" = JVal.str "0")) := by
  constructor
  · intro h
    simp [normalizeIsWeb, h]
  · intro h
    have hng : normalizeIsWeb base =
        objSet base "is_web"
          (if objGet base "is_web" ∈ isWebTruthySet then JVal.str "1" else JVal.str "0") := by
      simp [normalizeIsWeb, h]
    by_cases hin : objGet base "is_web" ∈ isWebTruthySet
    · have hv : objGet (normalizeIsWeb base) "is_web" = JVal.str "1" := by
        rw [hng, if_pos hin, objGet_objSet]
      have hdisj : objGet base "is_web" = JVal.str "1" ∨
          objGet base "is_web" = JVal.str "true" ∨
          objGet base "is_web" = JVal.str "True" ∨ objGet base "is_web" = JVal.num 1 ∨
          objGet base "is_web" = JVal.bool true := by
        simpa [isWebTruthySet] using hin
      exact ⟨iff_of_true hv hdisj, Or.inl hv⟩
    · have hv : objGet (normalizeIsWeb base) "is_web" = JVal.str "0" := by
        rw [hng, if_neg hin, objGet_objSet]
      have hndisj : ¬(objGet base "is_web" = JVal.str "1" ∨
          objGet base "is_web" = JVal.str "true" ∨
          objGet base "is_web" = JVal.str "True" ∨ objGet base "is_web" = JVal.num 1 ∨
          objGet base "is_web" = JVal.bool true) := by
        simpa [isWebTruthySet] using hin
      refine ⟨iff_of_false ?_ hndisj, Or.inr hv⟩
      rw [hv]
      intro hc
      simp at hc

/-- C7 witness: a base carrying is_web as the boolean true is
normalized to the string 1. -/
theorem claim7_is_web_normalization_witness :
    objGet (normalizeIsWeb [("is_web", JVal.bool true)]) "is_web" = JVal.str "1" := by
  have h := (claim7_is_web_normalization [("is_web", JVal.bool true)]).2 (by decide)
  exact h.1.mpr (Or.inr (Or.inr (Or.inr (Or.inr (by decide)))))

lemma toFormBody_eq (obj : List (String × JVal)) :
    toFormBody obj =
      (obj.filter fun kv => ¬(kv.2 = JVal.undef ∨ kv.2 = JVal.null)).map
        (fun kv => (kv.1, jsToString kv.2)) := by
  induction obj with
  | nil => rfl
  | cons hd tl ih =>
    obtain ⟨k0, v⟩ := hd
    cases v <;> simp [toFormBody, ih]

lemma toFormBody_countP (obj : List (String × JVal)) (k : String) :
    (toFormBody obj).countP (fun kv => kv.1 = k) =
      obj.countP (fun kv => kv.1 = k ∧ ¬(kv.2 = JVal.undef ∨ kv.2 = JVal.null)) := by
  induction obj with
  | nil => rfl
  | cons hd tl ih =>
    obtain ⟨k0, v⟩ := hd
    by_cases hk : k0 = k <;> cases v <;> simp [toFormBody, List.countP_cons, hk, ih]

/-- C8: the form encoder drops every entry whose value is undefined or
null, so its key contributes nothing, keeps every other entry exactly
once with the value stringified, in insertion order, and the serialized
body is the standard form-urlencoded rendering of exactly those kept
entries in that order. -/
theorem claim8_form_encoder_skips_null (obj : List (String × JVal)) :
    toFormBody obj =
      (obj.filter fun kv => ¬(kv.2 = JVal.undef ∨ kv.2 = JVal.null)).map
        (fun kv => (kv.1, jsToString kv.2)) ∧
    (∀ k : String,
      (toFormBody obj).countP (fun kv => kv.1 = k) =
        obj.countP (fun kv => kv.1 = k ∧ ¬(kv.2 = JVal.undef ∨ kv.2 = JVal.null))) ∧
    serializeForm (toFormBody obj) =
      String.intercalate "&"
        (((obj.filter fun kv => ¬(kv.2 = JVal.undef ∨ kv.2 = JVal.null)).map
            (fun kv => (kv.1, jsToString kv.2))).map
          (fun kv => encodeFormComponent kv.1 ++ "=" ++ encodeFormComponent kv.2)) := by
  refine ⟨toFormBody_eq obj, fun k => toFormBody_countP obj k, ?_⟩
  rw [serializeForm, toFormBody_eq obj]

end BulkRelay
